import Mathlib

/-
Verification of the reboot-decision core of ping-watchdog.py.

The Python source is shallowly embedded below:
* log-line parsing and the 24h reboot counter (num_reboots_24h, lines 277-300),
* the ping retry loop (ping_attempts lines 238-258, ping_host lines 261-274),
* the notify-and-reboot orchestration (notify_and_reboot lines 319-335,
  Pushover.notify lines 201-228, MyLog.notify lines 111-118,
  send_reboot_cmd lines 303-316, main lines 338-374).

External effects (probe results, push transport, reboot command exit status,
the wall clock) are inputs; the observable effects of one decision cycle are
returned as a trace of Act values.
-/

/-- A local timestamp at second granularity, as produced by
datetime.strptime(dt, "%Y-%m-%d %H:%M:%S"). -/
structure DateTime where
  year : Nat
  month : Nat
  day : Nat
  hour : Nat
  minute : Nat
  second : Nat
deriving DecidableEq, Repr

/-- ASCII digit test, as used by the strptime regex \d. -/
def isDigitCh (c : Char) : Bool :=
  '0' ≤ c && c ≤ '9'

/-- Numeric value of a digit character. -/
def dval (c : Char) : Nat :=
  c.toNat - '0'.toNat

/-- Python str.split(sep) with a one-character separator: splits at every
occurrence of sep; always returns a non-empty list. -/
def splitOnChar (sep : Char) : List Char → List (List Char)
  | [] => [[]]
  | c :: cs =>
    match splitOnChar sep cs with
    | [] => [[]]
    | group :: rest =>
      if c = sep then [] :: group :: rest else (c :: group) :: rest

/-- Whether the needle occurs at the start of the haystack. -/
def matchesAt : List Char → List Char → Bool
  | [], _ => true
  | _ :: _, [] => false
  | a :: as, b :: bs => a == b && matchesAt as bs

/-- Python str.find(needle) != -1: substring containment. -/
def containsList (needle : List Char) : List Char → Bool
  | [] => matchesAt needle []
  | c :: cs => matchesAt needle (c :: cs) || containsList needle cs

/-- Python \s whitespace class. -/
def isSpaceCh (c : Char) : Bool :=
  c == ' ' || c == '\t' || c == '\n' || c == '\r' || c == '\x0b' || c == '\x0c'

/-- The year field of CPython strptime: exactly four digits. -/
def parse4digits : List Char → Option (Nat × List Char)
  | a :: b :: c :: d :: rest =>
    if isDigitCh a && isDigitCh b && isDigitCh c && isDigitCh d then
      some ((((dval a * 10 + dval b) * 10 + dval c) * 10 + dval d), rest)
    else none
  | _ => none

/-- A two-digits-preferred numeric field of CPython strptime: accept two
digits whose value lies in [lo2, hi2], otherwise fall back to a single digit
whose value lies in [lo1, hi1] (mirrors the ordered regex alternations for
%m, %d, %H, %M, %S). -/
def parse2or1 (lo2 hi2 lo1 hi1 : Nat) : List Char → Option (Nat × List Char)
  | a :: b :: rest =>
    if isDigitCh a then
      if isDigitCh b && lo2 ≤ dval a * 10 + dval b && dval a * 10 + dval b ≤ hi2 then
        some (dval a * 10 + dval b, rest)
      else if lo1 ≤ dval a && dval a ≤ hi1 then
        some (dval a, b :: rest)
      else none
    else none
  | [a] =>
    if isDigitCh a && lo1 ≤ dval a && dval a ≤ hi1 then some (dval a, []) else none
  | [] => none

/-- Literal character in the strptime format. -/
def expectChar (c : Char) : List Char → Option (List Char)
  | d :: rest => if d = c then some rest else none
  | [] => none

/-- A whitespace character in the strptime format matches one or more
whitespace characters of the input. -/
def skipWs : List Char → Option (List Char)
  | c :: rest => if isSpaceCh c then some (rest.dropWhile isSpaceCh) else none
  | [] => none

/-- Gregorian leap-year rule, as in Python datetime. -/
def isLeapYear (y : Nat) : Bool :=
  (y % 4 == 0 && y % 100 != 0) || y % 400 == 0

/-- Days in a month, as validated by the Python datetime constructor. -/
def daysInMonth (y m : Nat) : Nat :=
  if m = 2 then (if isLeapYear y then 29 else 28)
  else if m = 4 ∨ m = 6 ∨ m = 9 ∨ m = 11 then 30
  else 31

/-- datetime.strptime(s, "%Y-%m-%d %H:%M:%S"): parse the whole string (no
unconverted data may remain), with the datetime constructor range checks
(year at least 1, day within the month, second at most 59). -/
def strptime (s : List Char) : Option DateTime := do
  let (y, r1) ← parse4digits s
  let r2 ← expectChar '-' r1
  let (mo, r3) ← parse2or1 1 12 1 9 r2
  let r4 ← expectChar '-' r3
  let (d, r5) ← parse2or1 1 31 1 9 r4
  let r6 ← skipWs r5
  let (h, r7) ← parse2or1 0 23 0 9 r6
  let r8 ← expectChar ':' r7
  let (mi, r9) ← parse2or1 0 59 0 9 r8
  let r10 ← expectChar ':' r9
  let (sec, r11) ← parse2or1 0 61 0 9 r10
  if r11 = [] ∧ 1 ≤ y ∧ d ≤ daysInMonth y mo ∧ sec ≤ 59 then
    some ⟨y, mo, d, h, mi, sec⟩
  else none

/-- Days since 0000-03-01 of a proleptic Gregorian date (valid for year ≥ 1);
strictly monotone in the chronological order, so it faithfully mirrors
Python datetime comparison. -/
def daysFromCivil (y m d : Nat) : Nat :=
  let yAdj := if m ≤ 2 then y - 1 else y
  let mAdj := if m ≤ 2 then m + 9 else m - 3
  365 * yAdj + yAdj / 4 - yAdj / 100 + yAdj / 400 + (153 * mAdj + 2) / 5 + (d - 1)

/-- Seconds on the absolute time line of a DateTime. -/
def toSec (dt : DateTime) : Nat :=
  daysFromCivil dt.year dt.month dt.day * 86400
    + dt.hour * 3600 + dt.minute * 60 + dt.second

/-- MyLog.log_msg (line 60): the reboot-trigger marker written to the log. -/
def log_msg : String :=
  "(ping-watchdog) ping failed. requesting reboot"

/-- Lines 288-289 of num_reboots_24h: discard a sub-second fraction
introduced by a comma or a dot (dt.split(sep) keeping the first part). -/
def stripFrac (dt : List Char) : List Char :=
  (splitOnChar '.' ((splitOnChar ',' dt).headD [])).headD []

/-- The per-line body of the loop in num_reboots_24h (lines 284-292): a line
yields a timestamp iff it splits at a single delimiter into dt and rest,
rest contains the marker text, and dt (fraction stripped) parses; any
exception (tuple-unpack failure, strptime failure) skips the line. -/
def parse_line (line : String) : Option DateTime :=
  match splitOnChar '|' line.data with
  | [dt, rest] =>
    if containsList log_msg.data rest then
      strptime (stripFrac dt)
    else none
  | _ => none

/-- num_reboots_24h (lines 277-300): parse every line, then count the
timestamps strictly greater than now minus 24 hours. -/
def num_reboots_24h (lines : List String) (now : DateTime) : Nat :=
  ((lines.filterMap parse_line).filter
    (fun d => decide ((toSec now : Int) - 86400 < (toSec d : Int)))).length

/-- The spec-side counting predicate of claim C4, stated per line: the line
has a single-delimiter split whose message field contains the marker and
whose timestamp (fraction stripped, %Y-%m-%d %H:%M:%S) is strictly more
recent than now minus 24 hours. -/
def is_counted (now : DateTime) (line : String) : Bool :=
  match splitOnChar '|' line.data with
  | [dt, rest] =>
    containsList log_msg.data rest &&
      (match strptime (stripFrac dt) with
       | some d => decide ((toSec now : Int) - 86400 < (toSec d : Int))
       | none => false)
  | _ => false

/-- One observable effect of a decision cycle. -/
inductive Act where
  | readHistory : Act
  | debugLog : String → Act
  | logFatal : String → Act
  | sysLogCmd : Act
  | pushAttempt : Act
  | rebootCmd : Act
deriving DecidableEq, Repr

/-- MyLog.notify (lines 111-118): fatal log line (this appends the marker
line to the log file) plus, off Windows, the system logger command. -/
def MyLog_notify (isNT : Bool) : List Act :=
  [Act.logFatal log_msg] ++ (if isNT then [] else [Act.sysLogCmd])

/-- Pushover.notify (lines 201-228). transport is the outcome of the HTTPS
exchange: ok status, or error for any raised exception. Short credentials
skip the request entirely; every transport failure is absorbed into a debug
log line. -/
def Pushover_notify (key token : String) (transport : Except Unit Nat) : List Act :=
  if key.length < 30 ∨ token.length < 30 then
    [Act.debugLog "pushover not properly configured"]
  else
    let sent : Bool :=
      match transport with
      | Except.ok status => decide (status = 200)
      | Except.error _ => false
    [Act.pushAttempt] ++
      (if sent then [Act.debugLog "push notification sent"]
       else [Act.debugLog "failed sending pushover notification"])

/-- Default pushover user key of the generated configuration (line 360). -/
def default_pushover_user_key : String := ""

/-- Default pushover api token of the generated configuration (line 361). -/
def default_pushover_api_token : String := ""

/-- send_reboot_cmd (lines 303-316): issues the reboot command, reporting
whether its exit status was zero. -/
def send_reboot_cmd (rebootExit : Nat) : List Act × Bool :=
  ([Act.rebootCmd], rebootExit == 0)

/-- notify_and_reboot (lines 319-335): read the reboot history, then either
abort on the threshold, or notify (system + push) and reboot. -/
def notify_and_reboot (lines : List String) (now : DateTime) (max_reboots_per_day : Nat)
    (key token : String) (transport : Except Unit Nat) (rebootExit : Nat)
    (isNT : Bool) : List Act :=
  let reboots := num_reboots_24h lines now
  [Act.readHistory, Act.debugLog "number of reboot attemps in the last 24h"] ++
    (if reboots ≥ max_reboots_per_day then
      [Act.logFatal "reboot canceled. max reboots allowed in 24h reached"]
    else
      MyLog_notify isNT ++
        Pushover_notify key token transport ++
        (send_reboot_cmd rebootExit).1 ++
        (if (send_reboot_cmd rebootExit).2 then []
         else [Act.logFatal "reboot command failed"]))

/-- ping_attempts (lines 238-258): run 2 × attempts probes (probe i is true
iff probe number i exits 0), returning the failure count together with the
list of probes performed. -/
def ping_attempts (probe : Nat → Bool) (attempts : Nat) : Nat × List Nat :=
  (List.range (2 * attempts)).foldl
    (fun acc i => (if probe i then acc.1 else acc.1 + 1, acc.2 ++ [i])) (0, [])

/-- The retry loop of ping_host, by recursion on the remaining rounds
(rem = retries - count): while count < retries, run a round; return true on
the first round whose failure count is at most attempts; otherwise false.
The second component is the number of rounds (ping_attempts calls) made. -/
def ping_host_go (probe : Nat → Nat → Bool) (attempts : Nat) : Nat → Nat → Bool × Nat
  | count, 0 => (false, count)
  | count, rem + 1 =>
    if (ping_attempts (probe count) attempts).1 ≤ attempts then (true, count + 1)
    else ping_host_go probe attempts (count + 1) rem

/-- ping_host (lines 261-274): the retry loop started at count = 0. probe is
indexed by round and by probe number within the round. -/
def ping_host (probe : Nat → Nat → Bool) (attempts retries : Nat) : Bool × Nat :=
  ping_host_go probe attempts 0 retries

/-- main (lines 371-374): reachable hosts stand the watchdog down, otherwise
notify_and_reboot runs. -/
def main_run (probe : Nat → Nat → Bool) (attempts retries : Nat)
    (lines : List String) (now : DateTime) (max_reboots_per_day : Nat)
    (key token : String) (transport : Except Unit Nat) (rebootExit : Nat)
    (isNT : Bool) : List Act :=
  if (ping_host probe attempts retries).1 then
    [Act.logFatal "no reboot required"]
  else
    notify_and_reboot lines now max_reboots_per_day key token transport rebootExit isNT

/-- The probe trace of the ping_attempts fold, generalized over the start
state: every element of the index list is probed once, in order. -/
lemma ping_attempts_trace_aux (probe : Nat → Bool) :
    ∀ (l : List Nat) (n : Nat) (acc : List Nat),
      (List.foldl (fun acc2 i => (if probe i then acc2.1 else acc2.1 + 1, acc2.2 ++ [i]))
        (n, acc) l).2 = acc ++ l := by
  intro l
  induction l with
  | nil => intro n acc; simp
  | cons x xs ih =>
    intro n acc
    simp only [List.foldl_cons]
    have h := ih (if probe x then n else n + 1) (acc ++ [x])
    rw [List.append_assoc, List.singleton_append] at h
    exact h

/-- ping_attempts probes exactly the indices 0, ..., 2 * attempts - 1. -/
lemma ping_attempts_trace (probe : Nat → Bool) (attempts : Nat) :
    (ping_attempts probe attempts).2 = List.range (2 * attempts) := by
  unfold ping_attempts
  have h := ping_attempts_trace_aux probe (List.range (2 * attempts)) 0 []
  simpa using h

/-- The retry loop makes at most rem further rounds. -/
lemma ping_host_go_rounds_le (probe : Nat → Nat → Bool) (attempts : Nat) :
    ∀ (rem count : Nat), (ping_host_go probe attempts count rem).2 ≤ count + rem := by
  intro rem
  induction rem with
  | zero => intro count; simp [ping_host_go]
  | succ n ih =>
    intro count
    simp only [ping_host_go]
    by_cases h : (ping_attempts (probe count) attempts).1 ≤ attempts
    · rw [if_pos h]
      show count + 1 ≤ count + (n + 1)
      omega
    · rw [if_neg h]
      have h2 := ih (count + 1)
      omega

/-- The retry loop reports false exactly when every remaining round fails
the threshold check. -/
lemma ping_host_go_false_iff (probe : Nat → Nat → Bool) (attempts : Nat) :
    ∀ (rem count : Nat),
      (ping_host_go probe attempts count rem).1 = false ↔
        ∀ j, j < rem → attempts < (ping_attempts (probe (count + j)) attempts).1 := by
  intro rem
  induction rem with
  | zero =>
    intro count
    simp [ping_host_go]
  | succ n ih =>
    intro count
    simp only [ping_host_go]
    by_cases h : (ping_attempts (probe count) attempts).1 ≤ attempts
    · rw [if_pos h]
      constructor
      · intro hf
        exact absurd hf (by simp)
      · intro hall
        have h0 := hall 0 (Nat.succ_pos n)
        rw [Nat.add_zero] at h0
        exact ((by omega : False)).elim
    · rw [if_neg h]
      rw [ih (count + 1)]
      constructor
      · intro hall j hj
        cases j with
        | zero =>
          rw [Nat.add_zero]
          omega
        | succ j2 =>
          have e : count + (j2 + 1) = count + 1 + j2 := by omega
          rw [e]
          exact hall j2 (by omega)
      · intro hall j hj
        have e : count + 1 + j = count + (j + 1) := by omega
        rw [e]
        exact hall (j + 1) (by omega)

/-- When the retry loop reports false it has run every remaining round. -/
lemma ping_host_go_false_rounds (probe : Nat → Nat → Bool) (attempts : Nat) :
    ∀ (rem count : Nat), (ping_host_go probe attempts count rem).1 = false →
      (ping_host_go probe attempts count rem).2 = count + rem := by
  intro rem
  induction rem with
  | zero => intro count _; simp [ping_host_go]
  | succ n ih =>
    intro count hf
    simp only [ping_host_go] at hf ⊢
    by_cases h : (ping_attempts (probe count) attempts).1 ≤ attempts
    · rw [if_pos h] at hf
      exact absurd hf (by simp)
    · rw [if_neg h] at hf ⊢
      have h2 := ih (count + 1) hf
      omega

/-- When the retry loop reports true it stopped right after the first round
that passed the threshold check. -/
lemma ping_host_go_true_first (probe : Nat → Nat → Bool) (attempts : Nat) :
    ∀ (rem count : Nat), (ping_host_go probe attempts count rem).1 = true →
      ∃ k, k < rem ∧ (ping_attempts (probe (count + k)) attempts).1 ≤ attempts ∧
        (∀ j, j < k → attempts < (ping_attempts (probe (count + j)) attempts).1) ∧
        (ping_host_go probe attempts count rem).2 = count + k + 1 := by
  intro rem
  induction rem with
  | zero =>
    intro count hf
    exact absurd hf (by simp [ping_host_go])
  | succ n ih =>
    intro count hf
    simp only [ping_host_go] at hf ⊢
    by_cases h : (ping_attempts (probe count) attempts).1 ≤ attempts
    · rw [if_pos h]
      refine ⟨0, Nat.succ_pos n, ?_, ?_, ?_⟩
      · rw [Nat.add_zero]; exact h
      · intro j hj; exact absurd hj (Nat.not_lt_zero j)
      · show count + 1 = count + 0 + 1
        omega
    · rw [if_neg h] at hf ⊢
      obtain ⟨k, hk, hle, hprev, hcnt⟩ := ih (count + 1) hf
      refine ⟨k + 1, by omega, ?_, ?_, ?_⟩
      · have e : count + (k + 1) = count + 1 + k := by omega
        rw [e]; exact hle
      · intro j hj
        cases j with
        | zero =>
          rw [Nat.add_zero]
          omega
        | succ j2 =>
          have e : count + (j2 + 1) = count + 1 + j2 := by omega
          rw [e]
          exact hprev j2 (by omega)
      · rw [hcnt]; omega

/-- Claim C1, counterexample: with retries = 0 and an always-failing probe,
ping_host returns false after 0 rounds — not after 0 + 1 rounds as the claim
requires, so a round of probes is not even attempted. -/
theorem claim1_counterexample :
    (ping_host (fun _ _ => false) 4 0).1 = false ∧
      (ping_host (fun _ _ => false) 4 0).2 ≠ 0 + 1 := by
  decide

/-- Claim C1, amended: for retries = r, ping_host runs at most r rounds
(not r + 1); it returns false exactly when all r rounds fail the threshold
check (round failure count > attempts), in which case exactly r rounds ran. -/
theorem claim1_prop (probe : Nat → Nat → Bool) (attempts retries : Nat) :
    (ping_host probe attempts retries).2 ≤ retries ∧
      ((ping_host probe attempts retries).1 = false ↔
        ∀ k, k < retries → attempts < (ping_attempts (probe k) attempts).1) ∧
      ((ping_host probe attempts retries).1 = false →
        (ping_host probe attempts retries).2 = retries) := by
  refine ⟨?_, ?_, ?_⟩
  · have h := ping_host_go_rounds_le probe attempts retries 0
    simpa [ping_host] using h
  · have h := ping_host_go_false_iff probe attempts retries 0
    simpa [ping_host] using h
  · intro hf
    have hf2 : (ping_host_go probe attempts 0 retries).1 = false := hf
    have h := ping_host_go_false_rounds probe attempts retries 0 hf2
    simpa [ping_host] using h

/-- Witness for claim C1: at attempts = 4, retries = 2, an always-failing
probe makes ping_host return false after exactly 2 rounds. -/
theorem claim1_witness :
    (ping_host (fun _ _ => false) 4 2).2 = 2 := by
  have h := claim1_prop (fun _ _ => false) 4 2
  exact h.2.2 (h.2.1.mpr (by decide))

/-- Claim C2: with retries = 0, ping_host returns false with a round counter
of 0 (ping_attempts was never invoked), regardless of the probe outcomes,
and main then runs notify_and_reboot exactly as for an unreachable host. -/
theorem claim2_prop (probe : Nat → Nat → Bool) (attempts : Nat)
    (lines : List String) (now : DateTime) (maxReboots : Nat) (key token : String)
    (transport : Except Unit Nat) (rebootExit : Nat) (isNT : Bool) :
    ping_host probe attempts 0 = (false, 0) ∧
      main_run probe attempts 0 lines now maxReboots key token transport rebootExit isNT =
        notify_and_reboot lines now maxReboots key token transport rebootExit isNT := by
  exact ⟨rfl, rfl⟩

/-- Claim C5: every round probes exactly the 2 × attempts probe indices; the
loop reports true exactly when some round within retries has failure count
at most attempts; and on success it stopped right after the first such
round, skipping all later rounds. -/
theorem claim5_prop (probe : Nat → Nat → Bool) (attempts retries : Nat) :
    (∀ k, (ping_attempts (probe k) attempts).2 = List.range (2 * attempts)) ∧
      ((ping_host probe attempts retries).1 = true ↔
        ∃ k, k < retries ∧ (ping_attempts (probe k) attempts).1 ≤ attempts) ∧
      ((ping_host probe attempts retries).1 = true →
        ∃ k, k < retries ∧ (ping_attempts (probe k) attempts).1 ≤ attempts ∧
          (∀ j, j < k → attempts < (ping_attempts (probe j) attempts).1) ∧
          (ping_host probe attempts retries).2 = k + 1) := by
  refine ⟨fun k => ping_attempts_trace (probe k) attempts, ?_, ?_⟩
  · constructor
    · intro ht
      obtain ⟨k, hk, hle, _, _⟩ := ping_host_go_true_first probe attempts retries 0 ht
      rw [Nat.zero_add] at hle
      exact ⟨k, hk, hle⟩
    · rintro ⟨k, hk, hle⟩
      cases hres : (ping_host probe attempts retries).1 with
      | true => rfl
      | false =>
        have hall := (ping_host_go_false_iff probe attempts retries 0).mp hres
        have h2 := hall k hk
        rw [Nat.zero_add] at h2
        exact absurd hle (by omega)
  · intro ht
    obtain ⟨k, hk, hle, hprev, hcnt⟩ := ping_host_go_true_first probe attempts retries 0 ht
    rw [Nat.zero_add] at hle hcnt
    refine ⟨k, hk, hle, ?_, hcnt⟩
    intro j hj
    have h2 := hprev j hj
    rw [Nat.zero_add] at h2
    exact h2

/-- Witness for claim C5: a probe stub that succeeds in round 1 and fails in
round 0 makes ping_host return true. -/
theorem claim5_witness :
    (ping_host (fun k _ => k == 1) 4 3).1 = true := by
  exact (claim5_prop (fun k _ => k == 1) 4 3).2.1.mpr ⟨1, by decide, by decide⟩

/-- splitOnChar never returns the empty list. -/
lemma splitOnChar_ne_nil (sep : Char) : ∀ (l : List Char), splitOnChar sep l ≠ [] := by
  intro l
  cases l with
  | nil => simp [splitOnChar]
  | cons c cs =>
    simp only [splitOnChar]
    cases splitOnChar sep cs with
    | nil => simp
    | cons g r => by_cases h : c = sep <;> simp [h]

/-- The number of fields of splitOnChar is the separator count plus one. -/
lemma splitOnChar_length (sep : Char) :
    ∀ (l : List Char), (splitOnChar sep l).length = l.countP (fun c => c == sep) + 1 := by
  intro l
  induction l with
  | nil => simp [splitOnChar]
  | cons c cs ih =>
    simp only [splitOnChar]
    cases h2 : splitOnChar sep cs with
    | nil => exact absurd h2 (splitOnChar_ne_nil sep cs)
    | cons g r =>
      rw [h2] at ih
      rw [List.countP_cons]
      simp only [List.length_cons] at ih
      by_cases h : c = sep
      · simp [h]
        omega
      · simp [h]
        omega

/-- Without any separator the whole line is the single field. -/
lemma splitOnChar_no_sep (sep : Char) :
    ∀ (l : List Char), (∀ c ∈ l, c ≠ sep) → splitOnChar sep l = [l] := by
  intro l
  induction l with
  | nil => intro _; rfl
  | cons c cs ih =>
    intro h
    have hc : c ≠ sep := h c (List.mem_cons_self c cs)
    have hrest := ih (fun x hx => h x (List.mem_cons_of_mem c hx))
    simp only [splitOnChar]
    rw [hrest]
    simp [hc]

/-- Per line, the counting condition realized by the source loop agrees with
the spec-side predicate is_counted. -/
lemma parse_line_counted (now : DateTime) (line : String) :
    (match parse_line line with
     | some d => decide ((toSec now : Int) - 86400 < (toSec d : Int))
     | none => false) = is_counted now line := by
  unfold parse_line is_counted
  cases hs : splitOnChar '|' line.data with
  | nil => rfl
  | cons a t =>
    cases t with
    | nil => rfl
    | cons b t2 =>
      cases t2 with
      | nil =>
        by_cases hm : containsList log_msg.data b = true
        · simp [hm]
        · rw [Bool.not_eq_true] at hm
          simp [hm]
      | cons c t3 => rfl

/-- A line that parses to none leaves the reboot count unchanged. -/
lemma num_reboots_skip (line : String) (lines : List String) (now : DateTime)
    (hp : parse_line line = none) :
    num_reboots_24h (line :: lines) now = num_reboots_24h lines now := by
  unfold num_reboots_24h
  rw [List.filterMap_cons_none hp]

/-- num_reboots_24h counts exactly the lines satisfying is_counted. -/
lemma num_reboots_eq_filter (now : DateTime) :
    ∀ (lines : List String),
      num_reboots_24h lines now = (lines.filter (is_counted now)).length := by
  intro lines
  induction lines with
  | nil => rfl
  | cons l ls ih =>
    have key := parse_line_counted now l
    cases hp : parse_line l with
    | none =>
      rw [hp] at key
      rw [num_reboots_skip l ls now hp, List.filter_cons, ← key]
      simpa using ih
    | some d =>
      rw [hp] at key
      unfold num_reboots_24h at ih ⊢
      rw [List.filterMap_cons_some hp]
      rw [List.filter_cons, List.filter_cons, ← key]
      by_cases hd : ((toSec now : Int) - 86400 < (toSec d : Int))
      · simp [hd, ih]
      · simp [hd, ih]

/-- The reference instant of the concrete log examples: 2021-08-12 10:00:00. -/
def sample_now : DateTime := ⟨2021, 8, 12, 10, 0, 0⟩

/-- Claim C4: num_reboots_24h returns exactly the number of lines whose
message field contains the marker and whose timestamp (fraction stripped,
%Y-%m-%d %H:%M:%S) is strictly greater than now minus 24 hours; marker lines
at now - 1h, now - 23h and now - 25h yield count 2. -/
theorem claim4_prop :
    (∀ (lines : List String) (now : DateTime),
      num_reboots_24h lines now = (lines.filter (is_counted now)).length) ∧
      num_reboots_24h
        ["2021-08-12 09:00:00,123 | (ping-watchdog) ping failed. requesting reboot",
         "2021-08-11 11:00:00,123 | (ping-watchdog) ping failed. requesting reboot",
         "2021-08-11 09:00:00,123 | (ping-watchdog) ping failed. requesting reboot"]
        sample_now = 2 := by
  exact ⟨fun lines now => num_reboots_eq_filter now lines, by decide⟩

/-- Claim C7: a line lacking the delimiter, or with an unparsable timestamp,
or with a message field not containing the marker, contributes nothing
(parse_line is total, so no exception escapes), and a skipped line leaves
the count unchanged. -/
theorem claim7_prop (line : String) (lines : List String) (now : DateTime)
    (dt rest : List Char) :
    ((∀ c ∈ line.data, c ≠ '|') → parse_line line = none) ∧
      (splitOnChar '|' line.data = [dt, rest] → strptime (stripFrac dt) = none →
        parse_line line = none) ∧
      (splitOnChar '|' line.data = [dt, rest] → containsList log_msg.data rest = false →
        parse_line line = none) ∧
      (parse_line line = none →
        num_reboots_24h (line :: lines) now = num_reboots_24h lines now) := by
  refine ⟨?_, ?_, ?_, fun hp => num_reboots_skip line lines now hp⟩
  · intro h
    unfold parse_line
    rw [splitOnChar_no_sep '|' line.data h]
  · intro hs hparse
    unfold parse_line
    rw [hs]
    by_cases hm2 : containsList log_msg.data rest = true
    · simp [hm2, hparse]
    · rw [Bool.not_eq_true] at hm2
      simp [hm2]
  · intro hs hm
    unfold parse_line
    rw [hs]
    simp [hm]

/-- Witness for claim C7: a delimiter-free line is skipped and does not
change the count. -/
theorem claim7_witness :
    parse_line "no delimiter here" = none ∧
      num_reboots_24h ["no delimiter here"] sample_now = num_reboots_24h [] sample_now := by
  have h := claim7_prop "no delimiter here" [] sample_now [] []
  have h1 : parse_line "no delimiter here" = none := h.1 (by decide)
  exact ⟨h1, h.2.2.2 h1⟩

/-- Claim C10: a line with two or more delimiter characters is skipped (the
two-way unpack fails), even when it carries a parsable timestamp and the
marker text, and it leaves the count unchanged. -/
theorem claim10_prop :
    (∀ (line : String) (lines : List String) (now : DateTime),
      2 ≤ line.data.countP (fun c => c == '|') →
        parse_line line = none ∧
          num_reboots_24h (line :: lines) now = num_reboots_24h lines now) ∧
      strptime (stripFrac "2021-08-12 09:00:00,123 ".data) = some ⟨2021, 8, 12, 9, 0, 0⟩ ∧
      containsList log_msg.data
        "2021-08-12 09:00:00,123 | x | (ping-watchdog) ping failed. requesting reboot".data
          = true ∧
      parse_line
        "2021-08-12 09:00:00,123 | x | (ping-watchdog) ping failed. requesting reboot"
          = none := by
  refine ⟨?_, by decide, by decide, by decide⟩
  intro line lines now hcount
  have hlen : 3 ≤ (splitOnChar '|' line.data).length := by
    rw [splitOnChar_length]
    omega
  have hnone : parse_line line = none := by
    unfold parse_line
    cases hs : splitOnChar '|' line.data with
    | nil => rfl
    | cons a t =>
      cases t with
      | nil => rfl
      | cons b t2 =>
        cases t2 with
        | nil =>
          rw [hs] at hlen
          simp at hlen
        | cons c t3 => rfl
  exact ⟨hnone, num_reboots_skip line lines now hnone⟩

/-- Witness for claim C10: the concrete double-delimiter line does not
change the count. -/
theorem claim10_witness :
    num_reboots_24h
      ["2021-08-12 09:00:00,123 | x | (ping-watchdog) ping failed. requesting reboot"]
      sample_now = num_reboots_24h [] sample_now := by
  exact (claim10_prop.1
    "2021-08-12 09:00:00,123 | x | (ping-watchdog) ping failed. requesting reboot"
    [] sample_now (by decide)).2

/-- debugLog lines go to the console only; every other Act is an external
effect (log-file append, system command, push request, reboot command). -/
def isActDebug : Act → Bool
  | Act.debugLog _ => true
  | _ => false

/-- The non-debug effects of Pushover.notify do not depend on the transport
outcome: at most the single push request. -/
lemma Pushover_notify_filter (key token : String) (transport : Except Unit Nat) :
    (Pushover_notify key token transport).filter (fun a => !isActDebug a) =
      if key.length < 30 ∨ token.length < 30 then [] else [Act.pushAttempt] := by
  unfold Pushover_notify
  by_cases h : key.length < 30 ∨ token.length < 30
  · simp [h, isActDebug]
  · cases transport with
    | ok s => by_cases h2 : s = 200 <;> simp [h, h2, isActDebug]
    | error e => simp [h, isActDebug]

/-- The history read never occurs inside Pushover.notify. -/
lemma readHistory_not_in_push (key token : String) (transport : Except Unit Nat) :
    Act.readHistory ∉ Pushover_notify key token transport := by
  unfold Pushover_notify
  by_cases h : key.length < 30 ∨ token.length < 30
  · simp [h]
  · cases transport with
    | ok s => by_cases h2 : s = 200 <;> simp [h, h2]
    | error e => simp [h]

/-- Claim C3: at or above the daily threshold the cycle aborts with only the
fatal throttle message — no marker log line, no system-logger command, no
push request, no reboot command; and the reboot command can occur only
strictly below the threshold. -/
theorem claim3_prop (lines : List String) (now : DateTime) (maxReboots : Nat)
    (key token : String) (transport : Except Unit Nat) (rebootExit : Nat) (isNT : Bool) :
    (num_reboots_24h lines now ≥ maxReboots →
      notify_and_reboot lines now maxReboots key token transport rebootExit isNT =
        [Act.readHistory, Act.debugLog "number of reboot attemps in the last 24h",
         Act.logFatal "reboot canceled. max reboots allowed in 24h reached"] ∧
      Act.rebootCmd ∉
        notify_and_reboot lines now maxReboots key token transport rebootExit isNT ∧
      Act.pushAttempt ∉
        notify_and_reboot lines now maxReboots key token transport rebootExit isNT ∧
      Act.sysLogCmd ∉
        notify_and_reboot lines now maxReboots key token transport rebootExit isNT ∧
      Act.logFatal log_msg ∉
        notify_and_reboot lines now maxReboots key token transport rebootExit isNT) ∧
    (Act.rebootCmd ∈ notify_and_reboot lines now maxReboots key token transport rebootExit isNT →
      num_reboots_24h lines now < maxReboots) := by
  have habort : num_reboots_24h lines now ≥ maxReboots →
      notify_and_reboot lines now maxReboots key token transport rebootExit isNT =
        [Act.readHistory, Act.debugLog "number of reboot attemps in the last 24h",
         Act.logFatal "reboot canceled. max reboots allowed in 24h reached"] := by
    intro h
    unfold notify_and_reboot
    simp [h]
  constructor
  · intro h
    have htr := habort h
    exact ⟨htr, by rw [htr]; decide, by rw [htr]; decide, by rw [htr]; decide,
      by rw [htr]; decide⟩
  · intro hmem
    by_cases h : num_reboots_24h lines now ≥ maxReboots
    · rw [habort h] at hmem
      exact absurd hmem (by decide)
    · omega

/-- Witness for claim C3: with an empty log and a zero threshold the trace
contains no reboot command. -/
theorem claim3_witness :
    Act.rebootCmd ∉ notify_and_reboot [] sample_now 0 "" "" (Except.error ()) 0 false := by
  exact ((claim3_prop [] sample_now 0 "" "" (Except.error ()) 0 false).1 (by decide)).2.1

/-- Claim C6: the non-debug effect trace of notify_and_reboot is the same for
every push transport outcome (push failure is absorbed into a debug line),
and below the threshold the reboot command is always issued, whatever the
push outcome. -/
theorem claim6_prop (lines : List String) (now : DateTime) (maxReboots : Nat)
    (key token : String) (rebootExit : Nat) (isNT : Bool) (t1 t2 : Except Unit Nat) :
    ((notify_and_reboot lines now maxReboots key token t1 rebootExit isNT).filter
        (fun a => !isActDebug a) =
      (notify_and_reboot lines now maxReboots key token t2 rebootExit isNT).filter
        (fun a => !isActDebug a)) ∧
    (num_reboots_24h lines now < maxReboots →
      Act.rebootCmd ∈ notify_and_reboot lines now maxReboots key token t1 rebootExit isNT) := by
  constructor
  · unfold notify_and_reboot
    by_cases h : num_reboots_24h lines now ≥ maxReboots
    · simp [h]
    · simp only [h, if_false, ite_false, List.filter_cons, List.filter_append,
        Pushover_notify_filter]
  · intro h
    have h2 : ¬ (num_reboots_24h lines now ≥ maxReboots) := by omega
    unfold notify_and_reboot
    simp [h2, MyLog_notify, send_reboot_cmd]

/-- Witness for claim C6: below the threshold, a failing transport still
leads to a reboot command. -/
theorem claim6_witness :
    Act.rebootCmd ∈ notify_and_reboot [] sample_now 1 "" "" (Except.error ()) 0 false := by
  exact (claim6_prop [] sample_now 1 "" "" 0 false (Except.error ()) (Except.ok 200)).2
    (by decide)

/-- Claim C8: every notify_and_reboot trace starts with the history read, and
the read never recurs, so every append of this cycle happens strictly after
the count was taken. -/
theorem claim8_prop (lines : List String) (now : DateTime) (maxReboots : Nat)
    (key token : String) (transport : Except Unit Nat) (rebootExit : Nat) (isNT : Bool) :
    ∃ rest, notify_and_reboot lines now maxReboots key token transport rebootExit isNT =
        Act.readHistory :: rest ∧ Act.readHistory ∉ rest := by
  by_cases h : num_reboots_24h lines now ≥ maxReboots
  · refine ⟨[Act.debugLog "number of reboot attemps in the last 24h",
      Act.logFatal "reboot canceled. max reboots allowed in 24h reached"], ?_, by decide⟩
    unfold notify_and_reboot
    simp [h]
  · refine ⟨Act.debugLog "number of reboot attemps in the last 24h" ::
      (MyLog_notify isNT ++ Pushover_notify key token transport ++
        (send_reboot_cmd rebootExit).1 ++
        (if (send_reboot_cmd rebootExit).2 then []
         else [Act.logFatal "reboot command failed"])), ?_, ?_⟩
    · unfold notify_and_reboot
      simp [h]
    · cases isNT <;>
        by_cases hr : ((rebootExit == 0) = true) <;>
          simp [MyLog_notify, send_reboot_cmd, hr,
            readHistory_not_in_push key token transport]

/-- Witness for claim C8 at a concrete cycle. -/
theorem claim8_witness :
    ∃ rest, notify_and_reboot [] sample_now 3 "" "" (Except.error ()) 0 false =
        Act.readHistory :: rest ∧ Act.readHistory ∉ rest := by
  exact claim8_prop [] sample_now 3 "" "" (Except.error ()) 0 false

/-- Claim C9: with a user key or api token shorter than 30 characters,
Pushover.notify returns right after one debug line and never issues the
push request; in particular the default empty credentials never push. -/
theorem claim9_prop (key token : String) (transport : Except Unit Nat) :
    (key.length < 30 ∨ token.length < 30 →
      Pushover_notify key token transport =
        [Act.debugLog "pushover not properly configured"] ∧
      Act.pushAttempt ∉ Pushover_notify key token transport) ∧
    Act.pushAttempt ∉
      Pushover_notify default_pushover_user_key default_pushover_api_token transport := by
  constructor
  · intro h
    have htr : Pushover_notify key token transport =
        [Act.debugLog "pushover not properly configured"] := by
      unfold Pushover_notify
      simp [h]
    exact ⟨htr, by rw [htr]; decide⟩
  · have hdef : default_pushover_user_key.length < 30 ∨
        default_pushover_api_token.length < 30 := by
      left
      decide
    have htr : Pushover_notify default_pushover_user_key default_pushover_api_token
        transport = [Act.debugLog "pushover not properly configured"] := by
      unfold Pushover_notify
      simp [hdef]
    rw [htr]
    decide

/-- Witness for claim C9: empty credentials with a failing transport give
only the debug line. -/
theorem claim9_witness :
    Pushover_notify "" "" (Except.error ()) =
      [Act.debugLog "pushover not properly configured"] := by
  exact ((claim9_prop "" "" (Except.error ())).1 (Or.inl (by decide))).1
